import Mathlib

/-!
Verification of the optical-configuration core of `microsim`
(`src/microsim/schema/optical_config/config.py`).

The `Spectrum`, `Filter`/`Placement`, `Fluorophore` and FPbase-client
collaborators are not part of the verified slice; they are modelled from the
specification text describing their interfaces (shared wavelength grid,
elementwise arithmetic, complement inversion).  Machine floats are modelled
by exact rationals.
-/

namespace Microsim

/-- Modelled from the spec: the external `Spectrum` collaborator —
wavelength/intensity pairs over a sampled wavelength axis (nm). -/
structure Spectrum where
  wavelength : List ℚ
  intensity : List ℚ
deriving DecidableEq

/-- Modelled from the spec: elementwise multiplication of spectra.  Axis
alignment/interpolation is delegated to the collaborator; the model keeps the
wavelength grid of the left operand and multiplies intensities pointwise. -/
def Spectrum.mul (a b : Spectrum) : Spectrum :=
  ⟨a.wavelength, List.zipWith (fun x y => x * y) a.intensity b.intensity⟩

/-- Modelled from the spec: where a filter sits in the optical path. -/
inductive Placement where
  | EX_PATH
  | EM_PATH
  | BS
  | BS_INV
  | ALL
deriving DecidableEq

/-- Modelled from the spec: the external `Filter` collaborator — a name, a
spectral transmission curve, and a placement. -/
structure Filter where
  name : String
  spectrum : Spectrum
  placement : Placement
deriving DecidableEq

/-- Modelled from the spec: `Filter.inverted()` returns the filter with the
complementary curve, transmission `1 - t` at each wavelength. -/
def Filter.inverted (f : Filter) : Filter :=
  { f with spectrum := ⟨f.spectrum.wavelength, f.spectrum.intensity.map (fun t => 1 - t)⟩ }

/-- Modelled from the spec: `SpectrumFilter(name=..., transmission=...)` builds
a filter from a name and a transmission spectrum.  The spec does not fix the
placement of the synthetic filter and no derived quantity reads it; the model uses
`ALL`. -/
def spectrumFilter (name : String) (transmission : Spectrum) : Filter :=
  ⟨name, transmission, Placement.ALL⟩

/-- `LightSource` from `config.py`: name, spectrum, optional power (W/cm^2). -/
structure LightSource where
  name : String
  spectrum : Spectrum
  power : Option ℚ
deriving DecidableEq

/-- `OpticalConfig` fields from `config.py`. -/
structure OpticalConfig where
  name : String
  filters : List Filter
  lights : List LightSource
  power : Option ℚ
deriving DecidableEq

/-- `OpticalConfig._merge` from `config.py`: no filters gives `none`, one
filter is returned unchanged, two or more are folded by spectral
multiplication into a synthetic `SpectrumFilter`. -/
def OpticalConfig._merge (self : OpticalConfig) (filters : List Filter)
    (spectrum : String) : Option Filter :=
  match filters with
  | [] => none
  | [f] => some f
  | f0 :: rest =>
    some (spectrumFilter ("Effective " ++ spectrum ++ " for " ++ self.name)
      (rest.foldl (fun acc filt => acc.mul filt.spectrum) f0.spectrum))

/-- The filter-collection loop of `OpticalConfig.excitation`: direct
contributors are `EX_PATH`, `BS_INV`, `ALL`; a `BS` filter is appended through
`inverted()`. -/
def excLoop (acc : List Filter) : List Filter → List Filter
  | [] => acc
  | f :: rest =>
    let acc1 :=
      if f.placement = Placement.EX_PATH ∨ f.placement = Placement.BS_INV
          ∨ f.placement = Placement.ALL
      then acc ++ [f] else acc
    let acc2 := if f.placement = Placement.BS then acc1 ++ [f.inverted] else acc1
    excLoop acc2 rest

/-- The filter-collection loop of `OpticalConfig.emission`: direct contributors
are `EM_PATH`, `BS`, `ALL`; a `BS_INV` filter is appended through
`inverted()`. -/
def emLoop (acc : List Filter) : List Filter → List Filter
  | [] => acc
  | f :: rest =>
    let acc1 :=
      if f.placement = Placement.EM_PATH ∨ f.placement = Placement.BS
          ∨ f.placement = Placement.ALL
      then acc ++ [f] else acc
    let acc2 := if f.placement = Placement.BS_INV then acc1 ++ [f.inverted] else acc1
    emLoop acc2 rest

/-- `OpticalConfig.excitation` from `config.py`. -/
def OpticalConfig.excitation (self : OpticalConfig) : Option Filter :=
  self._merge (excLoop [] self.filters) "excitation"

/-- `OpticalConfig.emission` from `config.py`. -/
def OpticalConfig.emission (self : OpticalConfig) : Option Filter :=
  self._merge (emLoop [] self.filters) "emission"

/-- `OpticalConfig.illumination` from `config.py`: fold the light spectra in
list order starting from the first, multiply in the excitation filter when
present; with no lights, the spectrum of the excitation filter (or `none`). -/
def OpticalConfig.illumination (self : OpticalConfig) : Option Spectrum :=
  match self.lights with
  | [] => self.excitation.map Filter.spectrum
  | l0 :: rest =>
    let illum_spect := rest.foldl (fun acc light => acc.mul light.spectrum) l0.spectrum
    match self.excitation with
    | some exc => some (illum_spect.mul exc.spectrum)
    | none => some illum_spect

/-- Modelled from the spec: a labeled numeric array over the wavelength
coordinate `w` (the `xr.DataArray` collaborator), with a name and attributes. -/
structure DataArray where
  w : List ℚ
  data : List ℚ
  name : String
  attrs : List (String × String)
deriving DecidableEq

/-- Modelled from the spec: `Spectrum.as_xarray()` converts a spectrum to an
array over its wavelength coordinate, with no name or attributes yet. -/
def Spectrum.as_xarray (s : Spectrum) : DataArray :=
  ⟨s.wavelength, s.intensity, "", []⟩

/-- Modelled from the spec: elementwise product of aligned arrays; binary
arithmetic drops name and attributes. -/
def DataArray.mulDA (a b : DataArray) : DataArray :=
  ⟨a.w, List.zipWith (fun x y => x * y) a.data b.data, "", []⟩

/-- Modelled from the spec: array divided by a scalar, elementwise. -/
def DataArray.divScalar (a : DataArray) (s : ℚ) : DataArray :=
  ⟨a.w, a.data.map (fun x => x / s), "", []⟩

/-- The sum of the array values across the wavelength axis. -/
def DataArray.sumData (a : DataArray) : ℚ := a.data.sum

/-- `OpticalConfig.irradiance` from `config.py`: requires `illumination`;
converts it to an array, normalizes to unit sum, does not apply `power`
(commented out in the source), and attaches metadata. -/
def OpticalConfig.irradiance (self : OpticalConfig) : Except String DataArray :=
  match self.illumination with
  | none => Except.error "This Optical Config has no illumination spectrum."
  | some illum =>
    let irrad := illum.as_xarray
    let irrad := irrad.divScalar irrad.sumData
    Except.ok { irrad with
      name := "irradiance"
      attrs := [("long_name", "Irradiance"), ("units", "W/cm^2")] }

/-- Modelled from the spec: a fluorophore exposes an absorption cross-section
curve (cm^2) over the same wavelength axis as the irradiance. -/
structure Fluorophore where
  absorption_cross_section : DataArray
deriving DecidableEq

/-- Planck constant h in J s, the exact SI value 6.62607015e-34
(`scipy.constants.h`), as a rational. -/
def hPlanck : ℚ := 662607015 / (10 ^ 42)

/-- Speed of light c in m/s, the exact SI value (`scipy.constants.c`). -/
def cLight : ℚ := 299792458

/-- `OpticalConfig.absorption_rate` from `config.py`: irradiance times
cross-section, divided per wavelength bin by the photon energy
`h * c / (w * 1e-9)`, with metadata attached. -/
def OpticalConfig.absorption_rate (self : OpticalConfig) (fluorophore : Fluorophore) :
    Except String DataArray :=
  match self.irradiance with
  | Except.error e => Except.error e
  | Except.ok irrad =>
    let cross_section := fluorophore.absorption_cross_section
    let watts_absorbed := irrad.mulDA cross_section
    let wavelength_meters := watts_absorbed.w.map (fun w => w * (1 / 10 ^ 9))
    let joules_per_photon := wavelength_meters.map (fun wm => hPlanck * cLight / wm)
    let abs_rate := List.zipWith (fun x y => x / y) watts_absorbed.data joules_per_photon
    Except.ok ⟨watts_absorbed.w, abs_rate, "absorption_rate",
      [("long_name", "Absorption rate"), ("units", "photons/s/fluorophore")]⟩

/-! ### Remote construction (`from_fpbase`) and string-form deserialization

The FPbase client (`get_microscope`, the record schema, `Spectrum.from_fpbase`,
`SpectrumFilter.from_fpbase`) is an external collaborator; it is modelled from
the spec.  The lookup function and the filter-record conversion are taken as
parameters of the embedding. -/

/-- Modelled from the spec: a record in the remote device database owning a
spectrum (used for the light of a configuration). -/
structure SpectrumOwner where
  name : String
  spectrum : Spectrum
deriving DecidableEq

/-- Modelled from the spec: `Spectrum.from_fpbase` converts a remote spectrum
record; modelled as the identity on the shared `Spectrum` model. -/
def Spectrum.from_fpbase (s : Spectrum) : Spectrum := s

/-- `LightSource.from_fpbase` from `config.py`: name and converted spectrum,
no power. -/
def LightSource.from_fpbase (light : SpectrumOwner) : LightSource :=
  ⟨light.name, Spectrum.from_fpbase light.spectrum, none⟩

/-- Modelled from the spec: the remote record of one optical configuration —
a name, an optional light, and a list of filter records of some type `φ`. -/
structure FPConfig (φ : Type) where
  name : String
  light : Option SpectrumOwner
  filters : List φ

/-- Modelled from the spec: `get_microscope` returns an object exposing the
list of optical-configuration records. -/
structure FPMicroscope (φ : Type) where
  opticalConfigs : List (FPConfig φ)

/-- Python `str.lower()`, modelled with `Char.toLower` over the characters. -/
def pyLower (s : String) : String := ⟨s.data.map Char.toLower⟩

/-- Python `s.split("::")`: scan the characters left to right, cutting at each
non-overlapping occurrence of `::`; the accumulator holds the current piece
reversed. -/
def splitColonColon : List Char → List Char → List (List Char)
  | [], acc => [acc.reverse]
  | [ch], acc => [(ch :: acc).reverse]
  | c1 :: c2 :: rest, acc =>
    if c1 = ':' ∧ c2 = ':' then acc.reverse :: splitColonColon rest []
    else splitColonColon (c2 :: rest) (c1 :: acc)

/-- Python `microscope_id.split("::")` as a list of strings.  The Python
substring test `"::" in s` holds exactly when this list has more than one
part. -/
def pySplitOn (s : String) : List String :=
  (splitColonColon s.data []).map (fun cs => ⟨cs⟩)

/-- The errors `OpticalConfig.from_fpbase` can raise, by constructor:
the missing `::` separator, the Python unpack failure when the split has more
than two parts, and the failed lookup carrying the queried name, the scope,
and the available configuration names. -/
inductive FpbaseError where
  | noSeparator
  | unpack (parts : Nat)
  | notFound (config_name : String) (microscope_id : String) (available : List String)
deriving DecidableEq

/-- Python `repr` of an ordinary string, modelled as surrounding quotes
(escaping of exotic characters is not modelled). -/
def pyRepr (s : String) : String := "\x27" ++ s ++ "\x27"

/-- Python `", ".join`. -/
def joinComma : List String → String
  | [] => ""
  | [x] => x
  | x :: xs => x ++ ", " ++ joinComma xs

/-- The error message texts of `from_fpbase`, from `config.py`. -/
def FpbaseError.message : FpbaseError → String
  | FpbaseError.noSeparator =>
    "If config_name is not provided, microscope_id must be in the form \x27scope::config\x27"
  | FpbaseError.unpack _ => "too many values to unpack"
  | FpbaseError.notFound config_name microscope_id available =>
    "Could not find config named " ++ pyRepr config_name ++ " in FPbase microscope "
      ++ pyRepr microscope_id ++ ". Available names: " ++ joinComma (available.map pyRepr)

/-- The `for cfg in fpbase_scope.opticalConfigs` loop of `from_fpbase`:
first record whose lowercased name equals the lowercased query. -/
def findConfig {φ : Type} (config_name : String) : List (FPConfig φ) → Option (FPConfig φ)
  | [] => none
  | cfg :: rest =>
    if pyLower cfg.name = pyLower config_name then some cfg
    else findConfig config_name rest

/-- The `if cfg.light: lights = [...] else: lights = []` step of `from_fpbase`:
a singleton light list when the record has a light, empty otherwise. -/
def lightsOf (light : Option SpectrumOwner) : List LightSource :=
  match light with
  | some l => [LightSource.from_fpbase l]
  | none => []

/-- The construction of the returned `OpticalConfig` inside `from_fpbase`:
name of the matched record, converted filters in record order, at most one light,
power left at its default `None`. -/
def buildConfig {φ : Type} (conv : φ → Filter) (cfg : FPConfig φ) : OpticalConfig :=
  { name := cfg.name
    filters := cfg.filters.map conv
    lights := lightsOf cfg.light
    power := none }

/-- The body of `from_fpbase` after the scope and config names are fixed:
look the name up case-insensitively, build on success, raise the
name-enumerating error on failure. -/
def fromScope {φ : Type} (getMicroscope : String → FPMicroscope φ) (conv : φ → Filter)
    (microscope_id config_name : String) : Except FpbaseError OpticalConfig :=
  match findConfig config_name (getMicroscope microscope_id).opticalConfigs with
  | some cfg => Except.ok (buildConfig conv cfg)
  | none =>
    Except.error (FpbaseError.notFound config_name microscope_id
      ((getMicroscope microscope_id).opticalConfigs.map FPConfig.name))

/-- `OpticalConfig.from_fpbase` from `config.py`, with the remote client and
the filter-record conversion as parameters.  With no `config_name`, the id
must split on `::` into exactly two parts (no separator raises the explicit
error; three or more parts raise the Python unpack error). -/
def OpticalConfig.from_fpbase {φ : Type} (getMicroscope : String → FPMicroscope φ)
    (conv : φ → Filter) (microscope_id : String) (config_name : Option String) :
    Except FpbaseError OpticalConfig :=
  match config_name with
  | some cname => fromScope getMicroscope conv microscope_id cname
  | none =>
    match pySplitOn microscope_id with
    | [scope, cname] => fromScope getMicroscope conv scope cname
    | [_] => Except.error FpbaseError.noSeparator
    | parts => Except.error (FpbaseError.unpack parts.length)

/-- The string branch of the pre-validation hook `OpticalConfig._vmodel`:
a string value without `::` is rejected, otherwise it is resolved through
`from_fpbase`; the `model_dump` plus pydantic re-validation round trip is
modelled as the identity on the resolved fields. -/
def OpticalConfig.vmodelString {φ : Type} (getMicroscope : String → FPMicroscope φ)
    (conv : φ → Filter) (value : String) : Except FpbaseError OpticalConfig :=
  if (pySplitOn value).length = 1 then Except.error FpbaseError.noSeparator
  else OpticalConfig.from_fpbase getMicroscope conv value none

/-! ### Concrete fixtures used by the witness theorems -/

def wBS : Filter := ⟨"bsf", ⟨[500, 600], [1, 3]⟩, Placement.BS⟩

def wBSI : Filter := ⟨"bsif", ⟨[500, 600], [4, 5]⟩, Placement.BS_INV⟩

def wEX : Filter := ⟨"exf", ⟨[500, 600], [2, 7]⟩, Placement.EX_PATH⟩

def wLight : LightSource := ⟨"light1", ⟨[500], [1]⟩, none⟩

def wLight2 : LightSource := ⟨"light2", ⟨[500], [2]⟩, none⟩

def wOC : OpticalConfig := ⟨"wcfg", [], [wLight], none⟩

def wOC2 : OpticalConfig := ⟨"wcfg2", [], [wLight, wLight2], none⟩

def wEmpty : OpticalConfig := ⟨"emptycfg", [], [], none⟩

def wFl : Fluorophore := ⟨⟨[500], [2], "cs", []⟩⟩

def wIrr : DataArray :=
  ⟨[500], [(1 : ℚ) / List.sum [(1 : ℚ)]], "irradiance",
    [("long_name", "Irradiance"), ("units", "W/cm^2")]⟩

def wScopeCfgs : List (FPConfig Unit) :=
  [⟨"Alpha", none, []⟩, ⟨"Beta", some ⟨"lamp", ⟨[500], [1]⟩⟩, []⟩]

def wGetM : String → FPMicroscope Unit := fun _ => ⟨wScopeCfgs⟩

def wConv : Unit → Filter := fun _ => wEX

def wBuilt : OpticalConfig := ⟨"Beta", [], [⟨"lamp", ⟨[500], [1]⟩, none⟩], none⟩

/-! ### Helper definitions and lemmas -/

/-- What a single filter contributes to the excitation path: itself when
placed `EX_PATH`, `BS_INV` or `ALL`, its inversion when placed `BS`,
nothing when placed `EM_PATH`. -/
def excContrib (f : Filter) : List Filter :=
  match f.placement with
  | Placement.EX_PATH => [f]
  | Placement.BS_INV => [f]
  | Placement.ALL => [f]
  | Placement.BS => [f.inverted]
  | Placement.EM_PATH => []

/-- What a single filter contributes to the emission path: itself when placed
`EM_PATH`, `BS` or `ALL`, its inversion when placed `BS_INV`, nothing when
placed `EX_PATH`. -/
def emContrib (f : Filter) : List Filter :=
  match f.placement with
  | Placement.EM_PATH => [f]
  | Placement.BS => [f]
  | Placement.ALL => [f]
  | Placement.BS_INV => [f.inverted]
  | Placement.EX_PATH => []

/-- A Boolean-valued success test for `Except` results. -/
def isOkE {ε α : Type} : Except ε α → Bool
  | Except.ok _ => true
  | Except.error _ => false

lemma excLoop_eq (fs : List Filter) : ∀ acc, excLoop acc fs = acc ++ fs.flatMap excContrib := by
  induction fs with
  | nil => intro acc; simp [excLoop]
  | cons f rest ih =>
    intro acc
    rcases hp : f.placement <;>
      simp [excLoop, hp, excContrib, ih, List.append_assoc]

lemma emLoop_eq (fs : List Filter) : ∀ acc, emLoop acc fs = acc ++ fs.flatMap emContrib := by
  induction fs with
  | nil => intro acc; simp [emLoop]
  | cons f rest ih =>
    intro acc
    rcases hp : f.placement <;>
      simp [emLoop, hp, emContrib, ih, List.append_assoc]

lemma inverted_wavelength (f : Filter) :
    f.inverted.spectrum.wavelength = f.spectrum.wavelength := rfl

/-- Pointwise product of intensity lists. -/
def pmul (a b : List ℚ) : List ℚ := List.zipWith (fun x y => x * y) a b

lemma pmul_comm : ∀ a b : List ℚ, pmul a b = pmul b a
  | [], [] => rfl
  | [], _ :: _ => rfl
  | _ :: _, [] => rfl
  | x :: xs, y :: ys => by
    show (x * y) :: pmul xs ys = (y * x) :: pmul ys xs
    rw [mul_comm x y, pmul_comm xs ys]

lemma pmul_assoc : ∀ a b c : List ℚ, pmul (pmul a b) c = pmul a (pmul b c)
  | [], _, _ => rfl
  | _ :: _, [], _ => rfl
  | _ :: _, _ :: _, [] => rfl
  | x :: xs, y :: ys, z :: zs => by
    show (x * y * z) :: pmul (pmul xs ys) zs = (x * (y * z)) :: pmul xs (pmul ys zs)
    rw [mul_assoc x y z, pmul_assoc xs ys zs]

instance : Std.Commutative pmul := ⟨pmul_comm⟩

instance : Std.Associative pmul := ⟨pmul_assoc⟩

/-- The product of a nonempty list of intensity lists, folded from its head;
`none` for the empty list. -/
def headFold : List (List ℚ) → Option (List ℚ)
  | [] => none
  | x :: xs => some (xs.foldl pmul x)

lemma headFold_perm {l1 l2 : List (List ℚ)} (p : l1.Perm l2) : headFold l1 = headFold l2 := by
  induction p with
  | nil => rfl
  | cons x h ih => exact congrArg some (h.foldl_eq x)
  | swap x y l =>
    show some (List.foldl pmul (pmul y x) l) = some (List.foldl pmul (pmul x y) l)
    rw [pmul_comm y x]
  | trans h1 h2 ih1 ih2 => exact ih1.trans ih2

/-- The spectral fold used by `_merge` for two or more filters. -/
def specFoldMul (s0 : Spectrum) (fs : List Filter) : Spectrum :=
  fs.foldl (fun acc filt => acc.mul filt.spectrum) s0

lemma specFoldMul_wavelength : ∀ (fs : List Filter) (s0 : Spectrum),
    (specFoldMul s0 fs).wavelength = s0.wavelength
  | [], _ => rfl
  | f :: rest, s0 => by
    show (specFoldMul (s0.mul f.spectrum) rest).wavelength = s0.wavelength
    rw [specFoldMul_wavelength rest (s0.mul f.spectrum)]
    rfl

lemma specFoldMul_intensity : ∀ (fs : List Filter) (s0 : Spectrum),
    (specFoldMul s0 fs).intensity
      = List.foldl pmul s0.intensity (fs.map (fun filt => filt.spectrum.intensity))
  | [], _ => rfl
  | f :: rest, s0 => by
    show (specFoldMul (s0.mul f.spectrum) rest).intensity
      = List.foldl pmul (pmul s0.intensity f.spectrum.intensity)
          (rest.map (fun filt => filt.spectrum.intensity))
    exact specFoldMul_intensity rest (s0.mul f.spectrum)

/-- The spectrum of the merge of a filter list: `none` when empty, otherwise
the spectral fold from the spectrum of the first filter. -/
def headSpecFold : List Filter → Option Spectrum
  | [] => none
  | f :: rest => some (specFoldMul f.spectrum rest)

lemma merge_map_spectrum (self : OpticalConfig) (path : String) :
    ∀ l : List Filter, (self._merge l path).map Filter.spectrum = headSpecFold l
  | [] => rfl
  | [_] => rfl
  | _ :: _ :: _ => rfl

lemma merged_spectrum_eq (l : List Filter) (W : List ℚ)
    (hW : ∀ f ∈ l, f.spectrum.wavelength = W) :
    headSpecFold l
      = (headFold (l.map (fun filt => filt.spectrum.intensity))).map
          (fun i => Spectrum.mk W i) := by
  cases l with
  | nil => rfl
  | cons f rest =>
    show some (specFoldMul f.spectrum rest)
      = (headFold ((f :: rest).map (fun filt => filt.spectrum.intensity))).map
          (fun i => Spectrum.mk W i)
    show some (specFoldMul f.spectrum rest)
      = some (Spectrum.mk W
          (List.foldl pmul f.spectrum.intensity (rest.map (fun filt => filt.spectrum.intensity))))
    have hw : f.spectrum.wavelength = W := hW f (List.mem_cons_self f rest)
    have h1 := specFoldMul_wavelength rest f.spectrum
    have h2 := specFoldMul_intensity rest f.spectrum
    refine congrArg some ?_
    cases hs : specFoldMul f.spectrum rest with
    | mk w i =>
      rw [hs] at h1 h2
      simp only at h1 h2
      rw [h1, hw] at *
      rw [h2]

/-- Spectral (pointwise) equality of merge results is preserved by permuting
the merged list, provided all spectra sit on a common wavelength grid. -/
lemma merge_spectrum_perm (selfA selfB : OpticalConfig) (pathA pathB : String)
    {l1 l2 : List Filter} (p : l1.Perm l2) (W : List ℚ)
    (hW : ∀ f ∈ l1, f.spectrum.wavelength = W) :
    (selfA._merge l1 pathA).map Filter.spectrum
      = (selfB._merge l2 pathB).map Filter.spectrum := by
  have hW2 : ∀ f ∈ l2, f.spectrum.wavelength = W := fun f hf => hW f (p.symm.subset hf)
  rw [merge_map_spectrum selfA pathA l1, merge_map_spectrum selfB pathB l2,
    merged_spectrum_eq l1 W hW, merged_spectrum_eq l2 W hW2,
    headFold_perm (p.map (fun filt => filt.spectrum.intensity))]

lemma sum_map_div (l : List ℚ) (S : ℚ) : (l.map (fun x => x / S)).sum = l.sum / S := by
  induction l with
  | nil => simp
  | cons x xs ih => simp [ih, add_div]

lemma zipWith_map_right2 (g : ℚ → ℚ → ℚ) (f : ℚ → ℚ) : ∀ a b : List ℚ,
    List.zipWith g a (b.map f) = List.zipWith (fun x y => g x (f y)) a b
  | [], b => by cases b <;> rfl
  | _ :: _, [] => rfl
  | x :: xs, y :: ys => by
    show g x (f y) :: List.zipWith g xs (ys.map f)
      = g x (f y) :: List.zipWith (fun x y => g x (f y)) xs ys
    rw [zipWith_map_right2 g f xs ys]

/-- `needle` occurs contiguously inside `hay`, at the level of character
lists. -/
def strContains (hay needle : String) : Prop :=
  ∃ pre post : List Char, hay.data = pre ++ (needle.data ++ post)

lemma data_append (s t : String) : (s ++ t).data = s.data ++ t.data := rfl

lemma strContains_append_left {s n : String} (t : String) (h : strContains s n) :
    strContains (s ++ t) n := by
  obtain ⟨pre, post, hp⟩ := h
  exact ⟨pre, post ++ t.data, by rw [data_append, hp]; simp [List.append_assoc]⟩

lemma strContains_append_right {t n : String} (s : String) (h : strContains t n) :
    strContains (s ++ t) n := by
  obtain ⟨pre, post, hp⟩ := h
  exact ⟨s.data ++ pre, post, by rw [data_append, hp]; simp [List.append_assoc]⟩

lemma strContains_pyRepr (n : String) : strContains (pyRepr n) n :=
  ⟨"\x27".data, "\x27".data, rfl⟩

lemma strContains_joinComma : ∀ (names : List String) (n : String), n ∈ names →
    strContains (joinComma (names.map pyRepr)) n
  | [], n, h => absurd h (List.not_mem_nil n)
  | [x], n, h => by
    rcases List.mem_singleton.mp h with rfl
    exact strContains_pyRepr n
  | x :: y :: ys, n, h => by
    show strContains ((pyRepr x ++ ", ") ++ joinComma ((y :: ys).map pyRepr)) n
    rcases List.mem_cons.mp h with rfl | h2
    · exact strContains_append_left _ (strContains_append_left _ (strContains_pyRepr n))
    · exact strContains_append_right _ (strContains_joinComma (y :: ys) n h2)

lemma notFound_message_contains (cn mid : String) (names : List String) (n : String)
    (h : n ∈ names) :
    strContains (FpbaseError.message (FpbaseError.notFound cn mid names)) n := by
  show strContains ("Could not find config named " ++ pyRepr cn
    ++ " in FPbase microscope " ++ pyRepr mid ++ ". Available names: "
    ++ joinComma (names.map pyRepr)) n
  exact strContains_append_right _ (strContains_joinComma names n h)

lemma findConfig_eq_none {φ : Type} (cname : String) :
    ∀ cfgs : List (FPConfig φ), (∀ cfg ∈ cfgs, pyLower cfg.name ≠ pyLower cname) →
      findConfig cname cfgs = none
  | [], _ => rfl
  | cfg :: rest, h => by
    show (if pyLower cfg.name = pyLower cname then some cfg else findConfig cname rest) = none
    rw [if_neg (h cfg (List.mem_cons_self cfg rest))]
    exact findConfig_eq_none cname rest (fun c hc => h c (List.mem_cons_of_mem cfg hc))

lemma findConfig_isSome_of_mem {φ : Type} (cname : String) :
    ∀ cfgs : List (FPConfig φ), (∃ cfg ∈ cfgs, pyLower cfg.name = pyLower cname) →
      (findConfig cname cfgs).isSome = true
  | [], h => by simp at h
  | cfg :: rest, h => by
    show (if pyLower cfg.name = pyLower cname then some cfg else findConfig cname rest).isSome
      = true
    by_cases hc : pyLower cfg.name = pyLower cname
    · rw [if_pos hc]; rfl
    · rw [if_neg hc]
      obtain ⟨c, hmem, heq⟩ := h
      rcases List.mem_cons.mp hmem with rfl | h2
      · exact absurd heq hc
      · exact findConfig_isSome_of_mem cname rest ⟨c, h2, heq⟩

lemma findConfig_some {φ : Type} (cname : String) :
    ∀ (cfgs : List (FPConfig φ)) (cfg : FPConfig φ), findConfig cname cfgs = some cfg →
      cfg ∈ cfgs ∧ pyLower cfg.name = pyLower cname
  | [], cfg, h => by exact absurd h (by simp [findConfig])
  | c :: rest, cfg, h => by
    by_cases hc : pyLower c.name = pyLower cname
    · have : some c = some cfg := by
        rw [← h]; show some c = if pyLower c.name = pyLower cname then some c else _
        rw [if_pos hc]
      rcases Option.some_inj.mp this with rfl
      exact ⟨List.mem_cons_self c rest, hc⟩
    · have h2 : findConfig cname rest = some cfg := by
        rw [← h]
        show findConfig cname rest
          = if pyLower c.name = pyLower cname then some c else findConfig cname rest
        rw [if_neg hc]
      obtain ⟨hmem, heq⟩ := findConfig_some cname rest cfg h2
      exact ⟨List.mem_cons_of_mem c hmem, heq⟩

lemma excContrib_wavelength {fs : List Filter} {W : List ℚ}
    (hW : ∀ f ∈ fs, f.spectrum.wavelength = W) :
    ∀ g ∈ fs.flatMap excContrib, g.spectrum.wavelength = W := by
  intro g hg
  obtain ⟨f, hf, hgf⟩ := List.mem_flatMap.mp hg
  have hfw := hW f hf
  cases hp : f.placement with
  | EX_PATH => simp [excContrib, hp] at hgf; subst hgf; exact hfw
  | BS_INV => simp [excContrib, hp] at hgf; subst hgf; exact hfw
  | ALL => simp [excContrib, hp] at hgf; subst hgf; exact hfw
  | BS =>
    simp [excContrib, hp] at hgf; subst hgf
    rw [inverted_wavelength]; exact hfw
  | EM_PATH => simp [excContrib, hp] at hgf

lemma emContrib_wavelength {fs : List Filter} {W : List ℚ}
    (hW : ∀ f ∈ fs, f.spectrum.wavelength = W) :
    ∀ g ∈ fs.flatMap emContrib, g.spectrum.wavelength = W := by
  intro g hg
  obtain ⟨f, hf, hgf⟩ := List.mem_flatMap.mp hg
  have hfw := hW f hf
  cases hp : f.placement with
  | EM_PATH => simp [emContrib, hp] at hgf; subst hgf; exact hfw
  | BS => simp [emContrib, hp] at hgf; subst hgf; exact hfw
  | ALL => simp [emContrib, hp] at hgf; subst hgf; exact hfw
  | BS_INV =>
    simp [emContrib, hp] at hgf; subst hgf
    rw [inverted_wavelength]; exact hfw
  | EX_PATH => simp [emContrib, hp] at hgf

/-! ### Claim theorems -/

/-- C1: a `BS` filter contributes to the excitation path only through its
inverted spectrum and to the emission path unmodified; a `BS_INV` filter
contributes to the emission path only through its inverted spectrum and to
the excitation path unmodified.  In particular a config with a single `BS`
filter has excitation `inverted()` and emission unmodified, and the two
assignments swap for a single `BS_INV` filter. -/
theorem C1_beamsplitter_paths (n : String) (ls : List LightSource) (p : Option ℚ)
    (fs : List Filter) (f : Filter) :
    (excLoop [] fs = fs.flatMap excContrib ∧ emLoop [] fs = fs.flatMap emContrib)
    ∧ (f.placement = Placement.BS →
        OpticalConfig.excitation ⟨n, [f], ls, p⟩ = some f.inverted
          ∧ OpticalConfig.emission ⟨n, [f], ls, p⟩ = some f)
    ∧ (f.placement = Placement.BS_INV →
        OpticalConfig.emission ⟨n, [f], ls, p⟩ = some f.inverted
          ∧ OpticalConfig.excitation ⟨n, [f], ls, p⟩ = some f) := by
  refine ⟨⟨by simpa using excLoop_eq fs [], by simpa using emLoop_eq fs []⟩, ?_, ?_⟩
  · intro hBS
    constructor
    · show OpticalConfig._merge _ (excLoop [] [f]) "excitation" = some f.inverted
      simp [excLoop, hBS, OpticalConfig._merge]
    · show OpticalConfig._merge _ (emLoop [] [f]) "emission" = some f
      simp [emLoop, hBS, OpticalConfig._merge]
  · intro hBSI
    constructor
    · show OpticalConfig._merge _ (emLoop [] [f]) "emission" = some f.inverted
      simp [emLoop, hBSI, OpticalConfig._merge]
    · show OpticalConfig._merge _ (excLoop [] [f]) "excitation" = some f
      simp [excLoop, hBSI, OpticalConfig._merge]

/-- Witness for C1 at a concrete `BS` filter. -/
theorem C1_beamsplitter_paths_witness :
    OpticalConfig.excitation ⟨"w", [wBS], [], none⟩ = some wBS.inverted
      ∧ OpticalConfig.emission ⟨"w", [wBS], [], none⟩ = some wBS :=
  (C1_beamsplitter_paths "w" [] none [] wBS).2.1 rfl

/-- C2: `_merge` returns `none` for no filters, the very filter for a
singleton, and for two or more a synthetic filter named
`Effective {path} for {config.name}` whose spectrum is the product of the
contributing spectra folded in list order. -/
theorem C2_merge_policy (self : OpticalConfig) (path : String) :
    self._merge [] path = none
    ∧ (∀ f : Filter, self._merge [f] path = some f)
    ∧ (∀ (f0 f1 : Filter) (rest : List Filter),
        self._merge (f0 :: f1 :: rest) path
          = some (spectrumFilter ("Effective " ++ path ++ " for " ++ self.name)
              (specFoldMul f0.spectrum (f1 :: rest)))) :=
  ⟨rfl, fun _ => rfl, fun _ _ _ => rfl⟩

/-- C3: with lights, `illumination` folds the light spectra in list order from
the first and multiplies in the excitation filter spectrum when present;
with no lights it is the spectrum of the excitation result (absent when that is
absent). -/
theorem C3_illumination_formula (oc : OpticalConfig) :
    (oc.lights = [] → oc.illumination = oc.excitation.map Filter.spectrum)
    ∧ (∀ (l0 : LightSource) (rest : List LightSource), oc.lights = l0 :: rest →
        (∀ exc : Filter, oc.excitation = some exc →
          oc.illumination = some ((rest.foldl (fun acc light => acc.mul light.spectrum)
            l0.spectrum).mul exc.spectrum))
        ∧ (oc.excitation = none →
          oc.illumination
            = some (rest.foldl (fun acc light => acc.mul light.spectrum) l0.spectrum))) := by
  constructor
  · intro h
    simp [OpticalConfig.illumination, h]
  · intro l0 rest h
    constructor
    · intro exc hexc
      simp [OpticalConfig.illumination, h, hexc]
    · intro hexc
      simp [OpticalConfig.illumination, h, hexc]

/-- Witness for C3 at a config with two lights and no filters. -/
theorem C3_illumination_formula_witness :
    wOC2.illumination
      = some (([wLight2] : List LightSource).foldl
          (fun acc light => acc.mul light.spectrum) wLight.spectrum) :=
  ((C3_illumination_formula wOC2).2 wLight [wLight2] rfl).2 rfl

/-- C4: with illumination present, `irradiance` is the illumination converted
to an array over the wavelength axis, divided by its sum (so it sums to 1
when the sum is nonzero), the `power` field is not applied, and metadata
name `irradiance` and units `W/cm^2` are attached. -/
theorem C4_irradiance_normalized (oc : OpticalConfig) (s : Spectrum)
    (h : oc.illumination = some s) :
    oc.irradiance = Except.ok ⟨s.wavelength, s.intensity.map (fun x => x / s.intensity.sum),
        "irradiance", [("long_name", "Irradiance"), ("units", "W/cm^2")]⟩
    ∧ (s.intensity.sum ≠ 0 → (s.intensity.map (fun x => x / s.intensity.sum)).sum = 1)
    ∧ (∀ p2 : Option ℚ,
        OpticalConfig.irradiance ⟨oc.name, oc.filters, oc.lights, p2⟩ = oc.irradiance) := by
  refine ⟨?_, ?_, ?_⟩
  · unfold OpticalConfig.irradiance
    rw [h]
    rfl
  · intro hs
    rw [sum_map_div]
    exact div_self hs
  · intro p2
    rcases oc with ⟨n, fs, ls, pw⟩
    rfl

/-- Witness for C4 at a config with a single monochromatic light. -/
theorem C4_irradiance_normalized_witness :
    wOC.irradiance
      = Except.ok ⟨wLight.spectrum.wavelength,
          wLight.spectrum.intensity.map (fun x => x / wLight.spectrum.intensity.sum),
          "irradiance", [("long_name", "Irradiance"), ("units", "W/cm^2")]⟩
    ∧ (wLight.spectrum.intensity.map
        (fun x => x / wLight.spectrum.intensity.sum)).sum = 1 :=
  ⟨(C4_irradiance_normalized wOC wLight.spectrum rfl).1,
    (C4_irradiance_normalized wOC wLight.spectrum rfl).2.1 (by simp [wLight])⟩

/-- C5: with irradiance available, `absorption_rate` returns at each
wavelength bin the product of irradiance and absorption cross-section
divided by the photon energy `h * c / (lambda * 1e-9)` computed from the
wavelength coordinate, with metadata name `absorption_rate`, long name
`Absorption rate`, units `photons/s/fluorophore`. -/
theorem C5_absorption_rate_formula (oc : OpticalConfig) (fl : Fluorophore)
    (irr : DataArray) (h : oc.irradiance = Except.ok irr) :
    oc.absorption_rate fl = Except.ok ⟨irr.w,
      List.zipWith (fun watts lam => watts / (hPlanck * cLight / (lam * (1 / 10 ^ 9))))
        (List.zipWith (fun x y => x * y) irr.data fl.absorption_cross_section.data)
        irr.w,
      "absorption_rate",
      [("long_name", "Absorption rate"), ("units", "photons/s/fluorophore")]⟩ := by
  unfold OpticalConfig.absorption_rate
  rw [h]
  show (Except.ok
      (DataArray.mk irr.w
        (List.zipWith (fun x y => x / y)
          (List.zipWith (fun x y => x * y) irr.data fl.absorption_cross_section.data)
          ((irr.w.map (fun w => w * (1 / 10 ^ 9))).map (fun wm => hPlanck * cLight / wm)))
        "absorption_rate"
        [("long_name", "Absorption rate"), ("units", "photons/s/fluorophore")])
      : Except String DataArray) = _
  simp only [zipWith_map_right2]

/-- Witness for C5 at a concrete config and fluorophore. -/
theorem C5_absorption_rate_formula_witness :
    wOC.absorption_rate wFl = Except.ok ⟨wIrr.w,
      List.zipWith (fun watts lam => watts / (hPlanck * cLight / (lam * (1 / 10 ^ 9))))
        (List.zipWith (fun x y => x * y) wIrr.data wFl.absorption_cross_section.data)
        wIrr.w,
      "absorption_rate",
      [("long_name", "Absorption rate"), ("units", "photons/s/fluorophore")]⟩ :=
  C5_absorption_rate_formula wOC wFl wIrr rfl

/-- C6: when illumination is absent (no lights and no excitation filters),
`irradiance` fails with the no-illumination error and `absorption_rate`
propagates the same error; when illumination is present neither fails. -/
theorem C6_missing_illumination_error (oc : OpticalConfig) (fl : Fluorophore) :
    (oc.illumination = none ↔ oc.lights = [] ∧ oc.excitation = none)
    ∧ (oc.illumination = none →
        oc.irradiance = Except.error "This Optical Config has no illumination spectrum."
          ∧ oc.absorption_rate fl
            = Except.error "This Optical Config has no illumination spectrum.")
    ∧ (∀ s : Spectrum, oc.illumination = some s →
        isOkE oc.irradiance = true ∧ isOkE (oc.absorption_rate fl) = true) := by
  refine ⟨?_, ?_, ?_⟩
  · rcases hl : oc.lights with _ | ⟨l0, rest⟩
    · rcases hexc : oc.excitation with _ | exc <;>
        simp [OpticalConfig.illumination, hl, hexc]
    · rcases hexc : oc.excitation with _ | exc <;>
        simp [OpticalConfig.illumination, hl, hexc]
  · intro h
    have hirr : oc.irradiance
        = Except.error "This Optical Config has no illumination spectrum." := by
      unfold OpticalConfig.irradiance
      rw [h]
    refine ⟨hirr, ?_⟩
    unfold OpticalConfig.absorption_rate
    rw [hirr]
  · intro s h
    have hirr : ∃ da, oc.irradiance = Except.ok da := by
      unfold OpticalConfig.irradiance
      rw [h]
      exact ⟨_, rfl⟩
    obtain ⟨da, hda⟩ := hirr
    constructor
    · rw [hda]; rfl
    · unfold OpticalConfig.absorption_rate
      rw [hda]
      rfl

/-- Witness for C6 at the empty config. -/
theorem C6_missing_illumination_error_witness :
    wEmpty.irradiance = Except.error "This Optical Config has no illumination spectrum."
      ∧ wEmpty.absorption_rate wFl
        = Except.error "This Optical Config has no illumination spectrum." :=
  (C6_missing_illumination_error wEmpty wFl).2.1 rfl

/-- C7: permuting the filter list leaves the excitation and emission results
spectrally equal, pointwise over a common wavelength grid (the regime in
which spectral multiplication is commutative and associative). -/
theorem C7_filter_order_independence (n : String) (ls : List LightSource) (p : Option ℚ)
    (fs fs2 : List Filter) (W : List ℚ) (hperm : fs.Perm fs2)
    (hW : ∀ f ∈ fs, f.spectrum.wavelength = W) :
    (OpticalConfig.excitation ⟨n, fs, ls, p⟩).map Filter.spectrum
      = (OpticalConfig.excitation ⟨n, fs2, ls, p⟩).map Filter.spectrum
    ∧ (OpticalConfig.emission ⟨n, fs, ls, p⟩).map Filter.spectrum
      = (OpticalConfig.emission ⟨n, fs2, ls, p⟩).map Filter.spectrum := by
  constructor
  · show (OpticalConfig._merge ⟨n, fs, ls, p⟩ (excLoop [] fs) "excitation").map Filter.spectrum
      = (OpticalConfig._merge ⟨n, fs2, ls, p⟩ (excLoop [] fs2) "excitation").map Filter.spectrum
    rw [excLoop_eq fs [], excLoop_eq fs2 [], List.nil_append, List.nil_append]
    exact merge_spectrum_perm _ _ _ _ (hperm.flatMap_right excContrib) W
      (excContrib_wavelength hW)
  · show (OpticalConfig._merge ⟨n, fs, ls, p⟩ (emLoop [] fs) "emission").map Filter.spectrum
      = (OpticalConfig._merge ⟨n, fs2, ls, p⟩ (emLoop [] fs2) "emission").map Filter.spectrum
    rw [emLoop_eq fs [], emLoop_eq fs2 [], List.nil_append, List.nil_append]
    exact merge_spectrum_perm _ _ _ _ (hperm.flatMap_right emContrib) W
      (emContrib_wavelength hW)

/-- Witness for C7 at a two-filter list and its transposition. -/
theorem C7_filter_order_independence_witness :
    (OpticalConfig.excitation ⟨"w", [wBS, wEX], [], none⟩).map Filter.spectrum
      = (OpticalConfig.excitation ⟨"w", [wEX, wBS], [], none⟩).map Filter.spectrum
    ∧ (OpticalConfig.emission ⟨"w", [wBS, wEX], [], none⟩).map Filter.spectrum
      = (OpticalConfig.emission ⟨"w", [wEX, wBS], [], none⟩).map Filter.spectrum :=
  C7_filter_order_independence "w" [] none [wBS, wEX] [wEX, wBS] [500, 600]
    (List.Perm.swap wEX wBS [])
    (by
      intro f hf
      rcases List.mem_cons.mp hf with rfl | hf2
      · rfl
      · rcases List.mem_cons.mp hf2 with rfl | hf3
        · rfl
        · cases hf3)

/-- C8: `from_fpbase` matches the config name case-insensitively; with no
match it fails with an error whose message contains every available
configuration name; with `config_name` omitted and no `::` in the id it
fails instead of performing a lookup. -/
theorem C8_lookup_errors {φ : Type} (getM : String → FPMicroscope φ) (conv : φ → Filter)
    (mid cname : String) :
    ((∀ cfg ∈ (getM mid).opticalConfigs, pyLower cfg.name ≠ pyLower cname) →
      OpticalConfig.from_fpbase getM conv mid (some cname)
          = Except.error (FpbaseError.notFound cname mid
              ((getM mid).opticalConfigs.map FPConfig.name))
        ∧ ∀ cfg ∈ (getM mid).opticalConfigs,
            strContains (FpbaseError.message (FpbaseError.notFound cname mid
              ((getM mid).opticalConfigs.map FPConfig.name))) cfg.name)
    ∧ ((∃ cfg ∈ (getM mid).opticalConfigs, pyLower cfg.name = pyLower cname) →
        isOkE (OpticalConfig.from_fpbase getM conv mid (some cname)) = true)
    ∧ ((pySplitOn mid).length = 1 →
        OpticalConfig.from_fpbase getM conv mid none = Except.error FpbaseError.noSeparator) := by
  refine ⟨?_, ?_, ?_⟩
  · intro h
    have hnone := findConfig_eq_none cname _ h
    constructor
    · show fromScope getM conv mid cname = _
      unfold fromScope
      rw [hnone]
    · intro cfg hc
      exact notFound_message_contains cname mid _ cfg.name
        (List.mem_map_of_mem FPConfig.name hc)
  · intro h
    have hsome := findConfig_isSome_of_mem cname _ h
    rcases hf : findConfig cname (getM mid).opticalConfigs with _ | cfg
    · rw [hf] at hsome
      cases hsome
    · show isOkE (fromScope getM conv mid cname) = true
      unfold fromScope
      rw [hf]
      rfl
  · intro h
    rcases hsp : pySplitOn mid with _ | ⟨x, _ | ⟨y, t⟩⟩
    · rw [hsp] at h
      simp at h
    · show (match pySplitOn mid with
        | [scope, cn] => fromScope getM conv scope cn
        | [_] => Except.error FpbaseError.noSeparator
        | parts => Except.error (FpbaseError.unpack parts.length))
        = Except.error FpbaseError.noSeparator
      rw [hsp]
    · rw [hsp] at h
      simp at h

/-- Witness for C8 at a concrete two-configuration microscope. -/
theorem C8_lookup_errors_witness :
    (OpticalConfig.from_fpbase wGetM wConv "scopeX" (some "gamma")
        = Except.error (FpbaseError.notFound "gamma" "scopeX"
            ((wGetM "scopeX").opticalConfigs.map FPConfig.name))
      ∧ strContains (FpbaseError.message (FpbaseError.notFound "gamma" "scopeX"
            ((wGetM "scopeX").opticalConfigs.map FPConfig.name))) "Alpha")
    ∧ isOkE (OpticalConfig.from_fpbase wGetM wConv "scopeX" (some "BETA")) = true
    ∧ OpticalConfig.from_fpbase wGetM wConv "noSep" none
        = Except.error FpbaseError.noSeparator := by
  refine ⟨⟨?_, ?_⟩, ?_, ?_⟩
  · exact ((C8_lookup_errors wGetM wConv "scopeX" "gamma").1 (by decide)).1
  · exact ((C8_lookup_errors wGetM wConv "scopeX" "gamma").1 (by decide)).2
      ⟨"Alpha", none, []⟩ (List.mem_cons_self _ _)
  · exact (C8_lookup_errors wGetM wConv "scopeX" "BETA").2.1
      ⟨⟨"Beta", some ⟨"lamp", ⟨[500], [1]⟩⟩, []⟩,
        List.mem_cons_of_mem _ (List.mem_cons_self _ _), by decide⟩
  · exact (C8_lookup_errors wGetM wConv "noSep" "x").2.2 (by decide)

/-- C9: building an `OpticalConfig` from the single string `scope::config`
through the pre-validation hook gives exactly the record returned by
`from_fpbase(scope, config)`, so all field values (name, filters, lights,
power) coincide. -/
theorem C9_string_form_roundtrip {φ : Type} (getM : String → FPMicroscope φ)
    (conv : φ → Filter) (value scope cname : String) (oc : OpticalConfig)
    (hsplit : pySplitOn value = [scope, cname])
    (hok : OpticalConfig.from_fpbase getM conv scope (some cname) = Except.ok oc) :
    OpticalConfig.vmodelString getM conv value = Except.ok oc := by
  unfold OpticalConfig.vmodelString OpticalConfig.from_fpbase
  rw [hsplit]
  rw [if_neg (by simp)]
  exact hok

/-- Witness for C9 at the concrete microscope. -/
theorem C9_string_form_roundtrip_witness :
    OpticalConfig.vmodelString wGetM wConv "scopeX::BETA" = Except.ok wBuilt :=
  C9_string_form_roundtrip wGetM wConv "scopeX::BETA" "scopeX" "BETA" wBuilt
    (by decide) rfl

/-- C10: every config returned by a successful lookup has `power = none`, the
original-cased stored name of the matched record, filters converted from that record filter list
filter list in record order, and a lights list that is a singleton exactly
when the record has a light (never longer). -/
theorem C10_lookup_result_invariants {φ : Type} (getM : String → FPMicroscope φ)
    (conv : φ → Filter) (mid cname : String) (oc : OpticalConfig)
    (h : OpticalConfig.from_fpbase getM conv mid (some cname) = Except.ok oc) :
    (findConfig cname (getM mid).opticalConfigs).isSome = true
    ∧ ∀ cfg : FPConfig φ, findConfig cname (getM mid).opticalConfigs = some cfg →
        cfg ∈ (getM mid).opticalConfigs
        ∧ pyLower cfg.name = pyLower cname
        ∧ oc.name = cfg.name
        ∧ oc.power = none
        ∧ oc.filters = cfg.filters.map conv
        ∧ oc.lights = lightsOf cfg.light
        ∧ oc.lights.length ≤ 1 := by
  rcases hf : findConfig cname (getM mid).opticalConfigs with _ | cfg
  · exfalso
    have h2 : fromScope getM conv mid cname = Except.ok oc := h
    unfold fromScope at h2
    rw [hf] at h2
    cases h2
  · have h2 : fromScope getM conv mid cname = Except.ok oc := h
    unfold fromScope at h2
    rw [hf] at h2
    have hoc : buildConfig conv cfg = oc := by
      cases h2
      rfl
    constructor
    · rfl
    · intro cfg2 hcfg2
      rcases Option.some_inj.mp hcfg2 with rfl
      obtain ⟨hmem, hname⟩ := findConfig_some cname _ cfg hf
      subst hoc
      refine ⟨hmem, hname, rfl, rfl, rfl, rfl, ?_⟩
      show (lightsOf cfg.light).length ≤ 1
      cases cfg.light <;> simp [lightsOf]

/-- Witness for C10 at the concrete microscope and its matched record. -/
theorem C10_lookup_result_invariants_witness :
    (⟨"Beta", some ⟨"lamp", ⟨[500], [1]⟩⟩, []⟩ : FPConfig Unit) ∈ (wGetM "scopeX").opticalConfigs
    ∧ pyLower (FPConfig.name (φ := Unit) ⟨"Beta", some ⟨"lamp", ⟨[500], [1]⟩⟩, []⟩)
        = pyLower "BETA"
    ∧ wBuilt.name = FPConfig.name (φ := Unit) ⟨"Beta", some ⟨"lamp", ⟨[500], [1]⟩⟩, []⟩
    ∧ wBuilt.power = none
    ∧ wBuilt.filters = (FPConfig.filters (φ := Unit) ⟨"Beta", some ⟨"lamp", ⟨[500], [1]⟩⟩, []⟩).map wConv
    ∧ wBuilt.lights = lightsOf (FPConfig.light (φ := Unit) ⟨"Beta", some ⟨"lamp", ⟨[500], [1]⟩⟩, []⟩)
    ∧ wBuilt.lights.length ≤ 1 :=
  (C10_lookup_result_invariants wGetM wConv "scopeX" "BETA" wBuilt rfl).2
    ⟨"Beta", some ⟨"lamp", ⟨[500], [1]⟩⟩, []⟩ rfl

end Microsim
